import Mathlib

/-!
Verification of the Home Station core subsystems, shallowly embedded from the
Python source: the event distribution bus (src/core/event_bus.py and
src/core/web_event_bus.py), the SQLite time-series store (src/core/data_store.py),
threshold alerting (src/core/alerts.py) and the recording hook (src/web_app.py).

Modelling conventions:
- Python floats (unix timestamps and sensor values, SQLite REAL) are modelled
  as rationals, so arithmetic is exact.
- SQLite tables are modelled as Lean lists in insertion order; SQL queries are
  translated clause by clause (WHERE = filter, ORDER BY = insertionSort,
  LIMIT = take, DISTINCT/GROUP BY = first-occurrence deduplication, since SQL
  leaves the row order of DISTINCT unspecified).
- A subscriber callback is modelled by its observable behaviour: its identity,
  its topic, and which payloads make it raise.  Invoking the callback appends
  to an explicit delivery log; a raised exception is caught by the bus and
  appended to an error log (mirroring the try/except around the call).
-/

/-- A subscriber callback of the bus, by observable behaviour: `sid` identifies
the callback, `topic` is the topic it registered for, and `throws p` says
whether calling it on payload `p` raises an exception. -/
structure Subscriber (α : Type) where
  sid : Nat
  topic : String
  throws : α → Bool

/-- State of `EventBus` (src/core/event_bus.py): the internal FIFO `_queue`
of (topic, payload) pairs and the `_subscribers` registry, kept in
registration order. -/
structure EventBusState (α : Type) where
  queue : List (String × α)
  subs : List (Subscriber α)

/-- `EventBus.publish(topic, payload)`: enqueue onto the FIFO queue. -/
def publish {α : Type} (bus : EventBusState α) (topic : String) (p : α) :
    EventBusState α :=
  ⟨bus.queue ++ [(topic, p)], bus.subs⟩

/-- A sequence of `publish` calls on one topic, first payload first. -/
def publishAll {α : Type} (bus : EventBusState α) (topic : String) (ps : List α) :
    EventBusState α :=
  ps.foldl (fun b p => publish b topic p) bus

/-- The inner loop of `EventBus._poll` for one dequeued message: iterate over
`self._subscribers.get(topic, [])` in registration order, invoke each callback
(recorded in the delivery log), and catch and log any exception so iteration
continues (the try/except sits inside the for loop).  Returns the delivery log
and the error log. -/
def dispatchMessage {α : Type} (subs : List (Subscriber α)) (topic : String)
    (p : α) : List (Nat × α) × List Nat :=
  (subs.filter (fun s => decide (s.topic = topic))).foldl
    (fun acc s =>
      (acc.1 ++ [(s.sid, p)], if s.throws p then acc.2 ++ [s.sid] else acc.2))
    ([], [])

/-- One tick of `EventBus._poll`: drain up to 50 messages from the queue in
FIFO order and dispatch each to the subscribers of its topic.  Returns the
remaining state plus the delivery log and error log of this tick. -/
def pollTick {α : Type} (bus : EventBusState α) :
    EventBusState α × List (Nat × α) × List Nat :=
  ⟨⟨bus.queue.drop 50, bus.subs⟩,
    (bus.queue.take 50).foldl
      (fun acc m =>
        let d := dispatchMessage bus.subs m.1 m.2
        (acc.1 ++ d.1, acc.2 ++ d.2))
      ([], [])⟩

/-- `n` consecutive poll ticks, concatenating the delivery and error logs. -/
def pollTicks {α : Type} : Nat → EventBusState α →
    EventBusState α × List (Nat × α) × List Nat
  | 0, bus => (bus, [], [])
  | n + 1, bus =>
    let t := pollTick bus
    let r := pollTicks n t.1
    (r.1, t.2.1 ++ r.2.1, t.2.2 ++ r.2.2)

/-- Delivery log produced by dispatching a list of messages in order. -/
def deliveries {α : Type} (subs : List (Subscriber α))
    (msgs : List (String × α)) : List (Nat × α) :=
  (msgs.map (fun m => (dispatchMessage subs m.1 m.2).1)).flatten

/-- Error log produced by dispatching a list of messages in order. -/
def faults {α : Type} (subs : List (Subscriber α))
    (msgs : List (String × α)) : List Nat :=
  (msgs.map (fun m => (dispatchMessage subs m.1 m.2).2)).flatten

lemma dispatchMessage_foldl {α : Type} (l : List (Subscriber α)) (p : α)
    (acc : List (Nat × α) × List Nat) :
    l.foldl (fun acc s =>
        (acc.1 ++ [(s.sid, p)], if s.throws p then acc.2 ++ [s.sid] else acc.2))
      acc
    = (acc.1 ++ l.map (fun s => (s.sid, p)),
       acc.2 ++ (l.filter (fun s => s.throws p)).map (fun s => s.sid)) := by
  induction l generalizing acc with
  | nil => simp
  | cons s l ih =>
    rcases hs : s.throws p with _ | _ <;>
      simp [List.foldl_cons, ih, hs, List.filter_cons]

lemma dispatchMessage_eq {α : Type} (subs : List (Subscriber α)) (topic : String)
    (p : α) :
    dispatchMessage subs topic p
      = ((subs.filter (fun s => decide (s.topic = topic))).map
            (fun s => (s.sid, p)),
         ((subs.filter (fun s => decide (s.topic = topic))).filter
            (fun s => s.throws p)).map (fun s => s.sid)) := by
  simp [dispatchMessage, dispatchMessage_foldl]

lemma pollTick_foldl {α : Type} (subs : List (Subscriber α))
    (msgs : List (String × α)) (acc : List (Nat × α) × List Nat) :
    msgs.foldl (fun acc m =>
        let d := dispatchMessage subs m.1 m.2
        (acc.1 ++ d.1, acc.2 ++ d.2)) acc
      = (acc.1 ++ deliveries subs msgs, acc.2 ++ faults subs msgs) := by
  induction msgs generalizing acc with
  | nil => simp [deliveries, faults]
  | cons m msgs ih => simp [deliveries, faults, List.foldl_cons, ih]

lemma deliveries_append {α : Type} (subs : List (Subscriber α))
    (xs ys : List (String × α)) :
    deliveries subs (xs ++ ys) = deliveries subs xs ++ deliveries subs ys := by
  simp [deliveries]

lemma faults_append {α : Type} (subs : List (Subscriber α))
    (xs ys : List (String × α)) :
    faults subs (xs ++ ys) = faults subs xs ++ faults subs ys := by
  simp [faults]

lemma pollTicks_spec {α : Type} (n : Nat) (q : List (String × α))
    (subs : List (Subscriber α)) :
    pollTicks n ⟨q, subs⟩
      = (⟨q.drop (50 * n), subs⟩,
         deliveries subs (q.take (50 * n)), faults subs (q.take (50 * n))) := by
  induction n generalizing q with
  | zero => simp [pollTicks, deliveries, faults]
  | succ n ih =>
    have hsplit : q.take (50 * (n + 1)) = q.take 50 ++ (q.drop 50).take (50 * n) := by
      rw [Nat.mul_succ, Nat.add_comm, List.take_add]
    have hdrop : (q.drop 50).drop (50 * n) = q.drop (50 * (n + 1)) := by
      rw [List.drop_drop, Nat.mul_succ, Nat.add_comm]
    simp only [pollTicks, pollTick, pollTick_foldl, List.nil_append, ih, hdrop,
      hsplit, deliveries_append, faults_append]

lemma publishAll_queue {α : Type} (q : List (String × α))
    (subs : List (Subscriber α)) (topic : String) (ps : List α) :
    publishAll ⟨q, subs⟩ topic ps
      = ⟨q ++ ps.map (fun p => (topic, p)), subs⟩ := by
  induction ps generalizing q with
  | nil => simp [publishAll]
  | cons p ps ih => simp [publishAll, publish, List.foldl_cons] at ih ⊢; simp [ih]

lemma flatten_map_singleton {β γ : Type} (l : List β) (f : β → γ) :
    (l.map (fun b => [f b])).flatten = l.map f := by
  induction l with
  | nil => simp
  | cons b l ih => simp [ih]

/-- Claim C1: with a single subscriber registered for a topic before the first
publish, after any sequence of N publishes on that topic the poll ticks drain
the queue FIFO and the subscriber callback is invoked exactly once per payload,
receiving the payloads in exactly their publish order (any run of ticks that
covers the queue, 50 messages per tick, yields exactly that delivery log). -/
theorem eventBus_fifo_single_subscriber {α : Type} (topic : String)
    (ps : List α) (i : Nat) (thr : α → Bool) (n : Nat)
    (h : ps.length ≤ 50 * n) :
    (pollTicks n (publishAll ⟨[], [⟨i, topic, thr⟩]⟩ topic ps)).2.1
      = ps.map (fun p => (i, p)) := by
  rw [publishAll_queue, pollTicks_spec]
  have htake : (ps.map (fun p => (topic, p))).take (50 * n)
      = ps.map (fun p => (topic, p)) := by
    apply List.take_of_length_le
    simpa using h
  simp only [List.nil_append, htake, deliveries, List.map_map, Function.comp_def]
  simp [dispatchMessage_eq, flatten_map_singleton]

/-- Witness for C1 at a concrete input: three payloads published to one
subscriber are delivered in publish order by one tick. -/
theorem eventBus_fifo_single_subscriber_witness :
    ([1, 2, 3] : List Nat).length ≤ 50 * 1 ∧
    (pollTicks 1 (publishAll ⟨[], [⟨7, "temp", fun _ => false⟩]⟩ "temp"
        ([1, 2, 3] : List Nat))).2.1 = [(7, 1), (7, 2), (7, 3)] := by
  refine ⟨by norm_num, ?_⟩
  have h := eventBus_fifo_single_subscriber "temp" ([1, 2, 3] : List Nat) 7
    (fun _ => false) 1 (by norm_num)
  simpa using h

/-- Claim C5: with any set of subscribers (some of which may raise on some
payloads), every subscriber of the topic is invoked on every published payload
in publish order: a callback that raises on payload `p_k` is caught and logged
(second component) and neither prevents the remaining subscribers from
receiving `p_k` nor the raising subscriber from receiving `p_{k+1}`.  The
delivery log is completely independent of the `throws` behaviour, so no
subscriber exception ever propagates to the dispatching context. -/
theorem eventBus_fault_isolation {α : Type} (topic : String)
    (subs : List (Subscriber α)) (ps : List α) (n : Nat)
    (h : ps.length ≤ 50 * n) :
    (pollTicks n (publishAll ⟨[], subs⟩ topic ps)).2.1
      = (ps.map (fun p => (subs.filter (fun s => decide (s.topic = topic))).map
          (fun s => (s.sid, p)))).flatten
    ∧ (pollTicks n (publishAll ⟨[], subs⟩ topic ps)).2.2
      = (ps.map (fun p => ((subs.filter (fun s => decide (s.topic = topic))).filter
          (fun s => s.throws p)).map (fun s => s.sid))).flatten := by
  rw [publishAll_queue, pollTicks_spec]
  have htake : (ps.map (fun p => (topic, p))).take (50 * n)
      = ps.map (fun p => (topic, p)) := by
    apply List.take_of_length_le
    simpa using h
  constructor
  · simp only [List.nil_append, htake, deliveries, List.map_map, Function.comp_def]
    simp [dispatchMessage_eq]
  · simp only [List.nil_append, htake, faults, List.map_map, Function.comp_def]
    simp [dispatchMessage_eq]

/-- Witness for C5 at a concrete input: subscriber 0 raises on payload 2, yet
both subscribers receive payloads 1, 2, 3 in order, and the exception is
logged exactly once. -/
theorem eventBus_fault_isolation_witness :
    ([1, 2, 3] : List Nat).length ≤ 50 * 1 ∧
    (pollTicks 1 (publishAll
        ⟨[], [⟨0, "t", fun p => decide (p = 2)⟩, ⟨1, "t", fun _ => false⟩]⟩
        "t" ([1, 2, 3] : List Nat))).2.1
      = [(0, 1), (1, 1), (0, 2), (1, 2), (0, 3), (1, 3)]
    ∧ (pollTicks 1 (publishAll
        ⟨[], [⟨0, "t", fun p => decide (p = 2)⟩, ⟨1, "t", fun _ => false⟩]⟩
        "t" ([1, 2, 3] : List Nat))).2.2 = [0] := by
  have h := eventBus_fault_isolation "t"
    [⟨0, "t", fun p => decide (p = 2)⟩, ⟨1, "t", fun _ => false⟩]
    ([1, 2, 3] : List Nat) 1 (by norm_num)
  refine ⟨by norm_num, ?_, ?_⟩
  · rw [h.1]; simp
  · rw [h.2]; simp

/-!
Time-series store (src/core/data_store.py).  The `readings` and `hourly_avg`
SQLite tables are lists in insertion order; the in-memory `_write_buffer` is a
third list.  SQL `CAST(x AS INTEGER)` and Python `int(x)` truncate toward
zero, written `sqlInt`; for the nonnegative unix timestamps the store handles
this coincides with the floor.  Python `round(x, 2)` (used by the query
helpers) is modelled as rounding to the nearest multiple of 1/100; claims
never evaluate it at exact half-way points, where float round-half-even could
differ.
-/

/-- A row of the `readings` table: `{timestamp REAL, field TEXT, value REAL}`. -/
structure Reading where
  timestamp : ℚ
  field : String
  value : ℚ
deriving DecidableEq

/-- A row of the `hourly_avg` table, keyed by `(hour, field)`. -/
structure Bucket where
  hour : ℤ
  field : String
  avgValue : ℚ
  minValue : ℚ
  maxValue : ℚ
  count : ℕ
deriving DecidableEq

/-- State of `DataStore`: the in-memory write buffer plus the two tables. -/
structure DataStore where
  writeBuffer : List Reading
  readings : List Reading
  hourlyAvg : List Bucket
deriving DecidableEq

/-- Truncation toward zero, as done by SQLite CAST(x AS INTEGER) and Python int(x). -/
def sqlInt (q : ℚ) : ℤ := if 0 ≤ q then ⌊q⌋ else ⌈q⌉

/-- Hour bucket of a timestamp: `CAST(timestamp / 3600 AS INTEGER)`. -/
def hourOf (ts : ℚ) : ℤ := sqlInt (ts / 3600)

/-- SQL SUM over a list of REAL values. -/
def listSum (vs : List ℚ) : ℚ := vs.foldl (· + ·) 0

/-- SQL MIN over a nonempty list of REAL values (0 on the empty list, which the
call sites guard against with a COUNT check). -/
def listMin : List ℚ → ℚ
  | [] => 0
  | v :: vs => vs.foldl min v

/-- SQL MAX over a nonempty list of REAL values (same guard as `listMin`). -/
def listMax : List ℚ → ℚ
  | [] => 0
  | v :: vs => vs.foldl max v

/-- SQL AVG over a nonempty list of REAL values. -/
def listAvg (vs : List ℚ) : ℚ := listSum vs / vs.length

/-- Python `round(x, 2)`. -/
def round2 (q : ℚ) : ℚ := (round (q * 100) : ℤ) / 100

/-- First-occurrence deduplication, modelling SQL DISTINCT / GROUP BY keys
(SQL does not specify the row order; none of the proved properties depend on
which order is chosen). -/
def distinctList {β : Type} [DecidableEq β] (l : List β) : List β :=
  l.foldl (fun acc x => if x ∈ acc then acc else acc ++ [x]) []

/-- `DataStore.record(field, value)`: append to the write buffer only. -/
def record (s : DataStore) (now : ℚ) (field : String) (value : ℚ) : DataStore :=
  ⟨s.writeBuffer ++ [⟨now, field, value⟩], s.readings, s.hourlyAvg⟩

/-- `DataStore._flush_buffer` (success path): swap the buffer out and insert
the batch into the `readings` table. -/
def flushBuffer (s : DataStore) : DataStore :=
  ⟨[], s.readings ++ s.writeBuffer, s.hourlyAvg⟩

/-- The NOT EXISTS subquery of `_maybe_downsample`: is there already an
`hourly_avg` row for this (hour, field) pair? -/
def hasBucket (hs : List Bucket) (hour : ℤ) (field : String) : Bool :=
  hs.any (fun b => decide (b.hour = hour) && decide (b.field = field))

/-- The WHERE clause of the per-hour aggregation query of `_maybe_downsample`:
`field = ? AND timestamp >= hour*3600 AND timestamp < hour*3600 + 3600`. -/
def inHour (hour : ℤ) (field : String) (r : Reading) : Bool :=
  decide (r.field = field) && decide ((hour : ℚ) * 3600 ≤ r.timestamp)
    && decide (r.timestamp < (hour : ℚ) * 3600 + 3600)

/-- `INSERT OR REPLACE INTO hourly_avg`: replace any row with the same
(hour, field) key. -/
def upsertBucket (hs : List Bucket) (b : Bucket) : List Bucket :=
  hs.filter (fun x => !(decide (x.hour = b.hour) && decide (x.field = b.field))) ++ [b]

/-- `DataStore._maybe_downsample`: find up to 100 distinct (hour, field) pairs
whose hour is complete (at most the previous hour) and not yet rolled up, and
upsert one `hourly_avg` row per pair from that hour of raw readings, guarded
by `COUNT(*) > 0`. -/
def maybeDownsample (s : DataStore) (now : ℚ) : DataStore :=
  let cutoffHour := sqlInt (now / 3600) - 1
  let pairs := distinctList
    ((s.readings.map (fun r => (hourOf r.timestamp, r.field))).filter
      (fun p => decide (p.1 ≤ cutoffHour) && !(hasBucket s.hourlyAvg p.1 p.2)))
  ⟨s.writeBuffer, s.readings,
    (pairs.take 100).foldl (fun hs p =>
      let vals := (s.readings.filter (inHour p.1 p.2)).map Reading.value
      if 0 < vals.length then
        upsertBucket hs ⟨p.1, p.2, listAvg vals, listMin vals, listMax vals, vals.length⟩
      else hs) s.hourlyAvg⟩

/-- The ordering used by `ORDER BY timestamp ASC`. -/
def byTime (a b : Reading) : Prop := a.timestamp ≤ b.timestamp

instance : DecidableRel byTime := fun a b =>
  inferInstanceAs (Decidable (a.timestamp ≤ b.timestamp))

instance : IsTotal Reading byTime := ⟨fun a b => le_total a.timestamp b.timestamp⟩

instance : IsTrans Reading byTime := ⟨fun _ _ _ h1 h2 => le_trans h1 h2⟩

/-- The ordering used by `ORDER BY hour ASC` on `hourly_avg`. -/
def byHour (a b : Bucket) : Prop := a.hour ≤ b.hour

instance : DecidableRel byHour := fun a b =>
  inferInstanceAs (Decidable (a.hour ≤ b.hour))

instance : IsTotal Bucket byHour := ⟨fun a b => le_total a.hour b.hour⟩

instance : IsTrans Bucket byHour := ⟨fun _ _ _ h1 h2 => le_trans h1 h2⟩

/-- A point returned by `get_history`: `{t, v}` plus `min`/`max` for
aggregated resolutions. -/
structure HistPoint where
  t : ℚ
  v : ℚ
  minv : Option ℚ
  maxv : Option ℚ
deriving DecidableEq

/-- `DataStore._raw_query`: raw readings of the field since the cutoff,
ordered by timestamp ascending, LIMIT `limit`. -/
def rawQuery (s : DataStore) (field : String) (cutoff : ℚ) (limit : ℕ) :
    List HistPoint :=
  ((List.insertionSort byTime (s.readings.filter
      (fun r => decide (r.field = field) && decide (cutoff ≤ r.timestamp)))).take
    limit).map (fun r => ⟨r.timestamp, r.value, none, none⟩)

/-- `CAST(timestamp / bucketSecs AS INTEGER) * bucketSecs`. -/
def bucketStart (bucketSecs : ℤ) (ts : ℚ) : ℤ := sqlInt (ts / bucketSecs) * bucketSecs

/-- `DataStore._averaged_query`: fixed-width time buckets over the readings of
the field since the cutoff, GROUP BY bucket start, ORDER BY bucket start ASC,
LIMIT `limit`; each bucket carries the rounded avg/min/max of its group and is
stamped at the bucket midpoint. -/
def averagedQuery (s : DataStore) (field : String) (cutoff : ℚ)
    (bucketSecs : ℤ) (limit : ℕ) : List HistPoint :=
  let rows := s.readings.filter
    (fun r => decide (r.field = field) && decide (cutoff ≤ r.timestamp))
  let keys := (List.insertionSort (· ≤ ·)
    (distinctList (rows.map (fun r => bucketStart bucketSecs r.timestamp)))).take limit
  keys.map (fun k =>
    let vals := (rows.filter
      (fun r => decide (bucketStart bucketSecs r.timestamp = k))).map Reading.value
    ⟨(k : ℚ) + (bucketSecs : ℚ) / 2, round2 (listAvg vals),
      some (round2 (listMin vals)), some (round2 (listMax vals))⟩)

/-- `DataStore._hourly_query`: precomputed `hourly_avg` rows of the field with
`hour >= int(cutoff / 3600)`, ORDER BY hour ASC, LIMIT `limit`, stamped at the
hour midpoint. -/
def hourlyQuery (s : DataStore) (field : String) (cutoff : ℚ) (limit : ℕ) :
    List HistPoint :=
  ((List.insertionSort byHour (s.hourlyAvg.filter
      (fun b => decide (b.field = field) && decide (sqlInt (cutoff / 3600) ≤ b.hour)))).take
    limit).map
    (fun b => ⟨(b.hour : ℚ) * 3600 + 1800, round2 b.avgValue,
      some (round2 b.minValue), some (round2 b.maxValue)⟩)

/-- `DataStore.get_history(field, hours, max_points)`: resolution selected by
the requested range (raw for up to 1 h, 300-second buckets for up to 24 h,
precomputed hourly buckets beyond). -/
def getHistory (s : DataStore) (now : ℚ) (field : String) (hours : ℚ)
    (maxPoints : ℕ) : List HistPoint :=
  let cutoff := now - hours * 3600
  if hours ≤ 1 then rawQuery s field cutoff maxPoints
  else if hours ≤ 24 then averagedQuery s field cutoff 300 maxPoints
  else hourlyQuery s field cutoff maxPoints

/-- `DataStore.cleanup(max_days)`: `DELETE FROM readings WHERE timestamp < cutoff`
with `cutoff = now - max_days * 86400`; nothing else is touched. -/
def cleanup (s : DataStore) (now : ℚ) (maxDays : ℕ) : DataStore :=
  ⟨s.writeBuffer,
    s.readings.filter (fun r => !(decide (r.timestamp < now - (maxDays : ℚ) * 86400))),
    s.hourlyAvg⟩

/-- One entry of the `get_summary` result. -/
structure SummaryEntry where
  avgValue : ℚ
  minValue : ℚ
  maxValue : ℚ
  count : ℕ
  current : Option ℚ
deriving DecidableEq

/-- The per-field `SELECT value FROM readings WHERE field = ? ORDER BY
timestamp DESC LIMIT 1` of `get_summary`: the persisted reading of the field
with the greatest timestamp (the last inserted one among equal timestamps). -/
def latestReading (rs : List Reading) (field : String) : Option Reading :=
  (List.insertionSort byTime (rs.filter (fun r => decide (r.field = field)))).getLast?

/-- `DataStore.get_summary(hours)`: per field with persisted readings in the
window, the rounded avg/min/max and count over the window plus the most recent
persisted value of that field.  Reads only the `readings` table, never the
write buffer. -/
def getSummary (s : DataStore) (now : ℚ) (hours : ℚ) :
    List (String × SummaryEntry) :=
  let cutoff := now - hours * 3600
  let rows := s.readings.filter (fun r => decide (cutoff ≤ r.timestamp))
  let fields := distinctList (rows.map Reading.field)
  fields.map (fun f =>
    let vals := (rows.filter (fun r => decide (r.field = f))).map Reading.value
    (f, ⟨round2 (listAvg vals), round2 (listMin vals), round2 (listMax vals),
      vals.length, (latestReading s.readings f).map (fun r => round2 r.value)⟩))

/-- The most recently recorded raw value of a field, whether or not it has been
flushed: the latest over the persisted table and the write buffer together
(buffer entries were recorded after every already-persisted row). -/
def latestRecordedValue (s : DataStore) (field : String) : Option ℚ :=
  (latestReading (s.readings ++ s.writeBuffer) field).map Reading.value

lemma sqlInt_of_nonneg (q : ℚ) (h : 0 ≤ q) : sqlInt q = ⌊q⌋ := by
  simp [sqlInt, h]

lemma hourOf_eq (h : ℤ) (t : ℚ) (h0 : 0 ≤ h)
    (hl : (h : ℚ) * 3600 ≤ t) (hu : t < (h : ℚ) * 3600 + 3600) :
    hourOf t = h := by
  have ht0 : (0 : ℚ) ≤ t := le_trans (by positivity) hl
  have hq0 : (0 : ℚ) ≤ t / 3600 := by positivity
  rw [hourOf, sqlInt_of_nonneg _ hq0, Int.floor_eq_iff]
  constructor
  · rw [le_div_iff₀ (by norm_num : (0:ℚ) < 3600)]
    exact hl
  · rw [div_lt_iff₀ (by norm_num : (0:ℚ) < 3600)]
    linarith

/-- Claim C2: for a (hour, field) pair whose hour is fully elapsed at
downsample time, running the downsample over a store holding exactly three
readings of that field inside that hour (and no prior rollup) produces exactly
one hourly bucket for the pair, with count 3, avg the arithmetic mean of the
three values and min/max their extremes; the raw readings and the buffer are
untouched. -/
theorem downsample_three_readings (buf : List Reading) (h : ℤ) (f : String)
    (t1 t2 t3 v1 v2 v3 now : ℚ) (h0 : 0 ≤ h)
    (ht1 : (h : ℚ) * 3600 ≤ t1 ∧ t1 < (h : ℚ) * 3600 + 3600)
    (ht2 : (h : ℚ) * 3600 ≤ t2 ∧ t2 < (h : ℚ) * 3600 + 3600)
    (ht3 : (h : ℚ) * 3600 ≤ t3 ∧ t3 < (h : ℚ) * 3600 + 3600)
    (hcomplete : h + 1 ≤ sqlInt (now / 3600)) :
    maybeDownsample ⟨buf, [⟨t1, f, v1⟩, ⟨t2, f, v2⟩, ⟨t3, f, v3⟩], []⟩ now
      = ⟨buf, [⟨t1, f, v1⟩, ⟨t2, f, v2⟩, ⟨t3, f, v3⟩],
          [⟨h, f, (v1 + v2 + v3) / 3, min (min v1 v2) v3, max (max v1 v2) v3, 3⟩]⟩ := by
  have e1 : hourOf t1 = h := hourOf_eq h t1 h0 ht1.1 ht1.2
  have e2 : hourOf t2 = h := hourOf_eq h t2 h0 ht2.1 ht2.2
  have e3 : hourOf t3 = h := hourOf_eq h t3 h0 ht3.1 ht3.2
  have hc : h ≤ sqlInt (now / 3600) - 1 := by omega
  simp [maybeDownsample, e1, e2, e3, hc, hasBucket, distinctList, inHour,
    upsertBucket, listAvg, listSum, listMin, listMax, ht1.1, ht1.2, ht2.1,
    ht2.2, ht3.1, ht3.2]

/-- Witness for C2 at the spec example: values 50, 52, 54 at t = 0, 1800, 3500
(hour 0), downsampled at t = 7200, yield the single bucket
{hour 0, avg 52, min 50, max 54, count 3}. -/
theorem downsample_three_readings_witness :
    maybeDownsample ⟨[], [⟨0, "x", 50⟩, ⟨1800, "x", 52⟩, ⟨3500, "x", 54⟩], []⟩ 7200
      = ⟨[], [⟨0, "x", 50⟩, ⟨1800, "x", 52⟩, ⟨3500, "x", 54⟩],
          [⟨0, "x", 52, 50, 54, 3⟩]⟩ := by
  have h := downsample_three_readings [] 0 "x" 0 1800 3500 50 52 54 7200
    (by norm_num) (by norm_num) (by norm_num) (by norm_num)
    (by rw [sqlInt_of_nonneg _ (by norm_num)]; norm_num [Int.floor_eq_iff])
  rw [h]
  norm_num [min_def, max_def]

/-- Claim C6: `cleanup(retention_days)` deletes exactly the raw readings with
timestamp strictly below `now - retention_days * 86400` (keeping the survivors
in order and multiplicity), and leaves every `hourly_avg` row and the write
buffer unchanged — in particular buckets whose source raw rows were just
deleted. -/
theorem cleanup_frame (s : DataStore) (now : ℚ) (maxDays : ℕ) :
    (cleanup s now maxDays).readings
        = s.readings.filter (fun r => decide (now - (maxDays : ℚ) * 86400 ≤ r.timestamp))
    ∧ (cleanup s now maxDays).readings.Sublist s.readings
    ∧ (∀ r : Reading, r ∈ (cleanup s now maxDays).readings
        ↔ r ∈ s.readings ∧ now - (maxDays : ℚ) * 86400 ≤ r.timestamp)
    ∧ (cleanup s now maxDays).hourlyAvg = s.hourlyAvg
    ∧ (cleanup s now maxDays).writeBuffer = s.writeBuffer := by
  refine ⟨?_, ?_, ?_, rfl, rfl⟩
  · apply List.filter_congr
    intro r _
    simp only [← decide_not]
    rw [decide_eq_decide]
    exact not_lt
  · exact List.filter_sublist _
  · intro r
    simp [cleanup, List.mem_filter, not_lt]

lemma rawQuery_length (s : DataStore) (f : String) (c : ℚ) (l : ℕ) :
    (rawQuery s f c l).length ≤ l := by
  simp only [rawQuery, List.length_map, List.length_take]
  exact min_le_left _ _

lemma rawQuery_sorted (s : DataStore) (f : String) (c : ℚ) (l : ℕ) :
    List.Pairwise (fun a b : HistPoint => a.t ≤ b.t) (rawQuery s f c l) := by
  rw [rawQuery]
  rw [List.pairwise_map]
  exact List.Pairwise.sublist (List.take_sublist _ _)
    (List.sorted_insertionSort byTime _)

lemma rawQuery_mem (s : DataStore) (f : String) (c : ℚ) (l : ℕ) :
    ∀ pt ∈ rawQuery s f c l, ∃ r ∈ s.readings,
      r.field = f ∧ c ≤ r.timestamp ∧ pt = ⟨r.timestamp, r.value, none, none⟩ := by
  intro pt hpt
  rw [rawQuery] at hpt
  obtain ⟨r, hr, rfl⟩ := List.mem_map.mp hpt
  have hr2 := List.Sublist.mem hr (List.take_sublist _ _)
  have hr3 := (List.perm_insertionSort byTime _).mem_iff.mp hr2
  rw [List.mem_filter] at hr3
  have hcond := hr3.2
  simp only [Bool.and_eq_true, decide_eq_true_eq] at hcond
  exact ⟨r, hr3.1, hcond.1, hcond.2, rfl⟩

lemma averagedQuery_length (s : DataStore) (f : String) (c : ℚ) (b : ℤ) (l : ℕ) :
    (averagedQuery s f c b l).length ≤ l := by
  simp only [averagedQuery, List.length_map, List.length_take]
  exact min_le_left _ _

lemma averagedQuery_sorted (s : DataStore) (f : String) (c : ℚ) (b : ℤ) (l : ℕ) :
    List.Pairwise (fun a b : HistPoint => a.t ≤ b.t) (averagedQuery s f c b l) := by
  rw [averagedQuery]
  rw [List.pairwise_map]
  refine List.Pairwise.imp ?_
    (List.Pairwise.sublist (List.take_sublist _ _)
      (List.sorted_insertionSort (· ≤ ·) _))
  intro k1 k2 hk
  dsimp only
  have hc : (k1 : ℚ) ≤ (k2 : ℚ) := by exact_mod_cast hk
  linarith

lemma averagedQuery_aggregated (s : DataStore) (f : String) (c : ℚ) (b : ℤ) (l : ℕ) :
    ∀ pt ∈ averagedQuery s f c b l, pt.minv.isSome ∧ pt.maxv.isSome := by
  intro pt hpt
  rw [averagedQuery] at hpt
  obtain ⟨k, _, rfl⟩ := List.mem_map.mp hpt
  exact ⟨rfl, rfl⟩

lemma hourlyQuery_length (s : DataStore) (f : String) (c : ℚ) (l : ℕ) :
    (hourlyQuery s f c l).length ≤ l := by
  simp only [hourlyQuery, List.length_map, List.length_take]
  exact min_le_left _ _

lemma hourlyQuery_sorted (s : DataStore) (f : String) (c : ℚ) (l : ℕ) :
    List.Pairwise (fun a b : HistPoint => a.t ≤ b.t) (hourlyQuery s f c l) := by
  rw [hourlyQuery]
  rw [List.pairwise_map]
  refine List.Pairwise.imp ?_
    (List.Pairwise.sublist (List.take_sublist _ _)
      (List.sorted_insertionSort byHour _))
  intro b1 b2 hb
  dsimp only
  have hc : (b1.hour : ℚ) ≤ (b2.hour : ℚ) := by exact_mod_cast hb
  linarith

lemma hourlyQuery_mem (s : DataStore) (f : String) (c : ℚ) (l : ℕ) :
    ∀ pt ∈ hourlyQuery s f c l, ∃ b ∈ s.hourlyAvg,
      b.field = f ∧ sqlInt (c / 3600) ≤ b.hour
      ∧ pt = ⟨(b.hour : ℚ) * 3600 + 1800, round2 b.avgValue,
          some (round2 b.minValue), some (round2 b.maxValue)⟩ := by
  intro pt hpt
  rw [hourlyQuery] at hpt
  obtain ⟨b, hb, rfl⟩ := List.mem_map.mp hpt
  have hb2 := List.Sublist.mem hb (List.take_sublist _ _)
  have hb3 := (List.perm_insertionSort byHour _).mem_iff.mp hb2
  rw [List.mem_filter] at hb3
  have hcond := hb3.2
  simp only [Bool.and_eq_true, decide_eq_true_eq] at hcond
  exact ⟨b, hb3.1, hcond.1, hcond.2, rfl⟩

/-- Claim C4: `get_history(field, range_hours, max_points)` selects its
resolution by `range_hours`: at most 1 hour gives the raw readings of the
window ordered by timestamp ascending; between 1 and 24 hours gives
fixed-width 300-second buckets in ascending time order, each carrying min and
max alongside the average; above 24 hours gives rows of the precomputed hourly
bucket table for the window in ascending order.  Every branch caps the result
at `max_points`. -/
theorem getHistory_resolution (s : DataStore) (now : ℚ) (field : String)
    (hours : ℚ) (maxPoints : ℕ) :
    (hours ≤ 1 →
      getHistory s now field hours maxPoints
          = rawQuery s field (now - hours * 3600) maxPoints
      ∧ (getHistory s now field hours maxPoints).length ≤ maxPoints
      ∧ List.Pairwise (fun a b : HistPoint => a.t ≤ b.t)
          (getHistory s now field hours maxPoints)
      ∧ ∀ pt ∈ getHistory s now field hours maxPoints, ∃ r ∈ s.readings,
          r.field = field ∧ now - hours * 3600 ≤ r.timestamp
          ∧ pt = ⟨r.timestamp, r.value, none, none⟩)
    ∧ (1 < hours → hours ≤ 24 →
      getHistory s now field hours maxPoints
          = averagedQuery s field (now - hours * 3600) 300 maxPoints
      ∧ (getHistory s now field hours maxPoints).length ≤ maxPoints
      ∧ List.Pairwise (fun a b : HistPoint => a.t ≤ b.t)
          (getHistory s now field hours maxPoints)
      ∧ ∀ pt ∈ getHistory s now field hours maxPoints,
          pt.minv.isSome ∧ pt.maxv.isSome)
    ∧ (24 < hours →
      getHistory s now field hours maxPoints
          = hourlyQuery s field (now - hours * 3600) maxPoints
      ∧ (getHistory s now field hours maxPoints).length ≤ maxPoints
      ∧ List.Pairwise (fun a b : HistPoint => a.t ≤ b.t)
          (getHistory s now field hours maxPoints)
      ∧ ∀ pt ∈ getHistory s now field hours maxPoints, ∃ b ∈ s.hourlyAvg,
          b.field = field ∧ sqlInt ((now - hours * 3600) / 3600) ≤ b.hour
          ∧ pt = ⟨(b.hour : ℚ) * 3600 + 1800, round2 b.avgValue,
              some (round2 b.minValue), some (round2 b.maxValue)⟩) := by
  refine ⟨fun h1 => ?_, fun h1 h24 => ?_, fun h24 => ?_⟩
  · have he : getHistory s now field hours maxPoints
        = rawQuery s field (now - hours * 3600) maxPoints := by
      simp [getHistory, h1]
    rw [he]
    exact ⟨rfl, rawQuery_length s field (now - hours * 3600) maxPoints,
      rawQuery_sorted s field (now - hours * 3600) maxPoints,
      rawQuery_mem s field (now - hours * 3600) maxPoints⟩
  · have he : getHistory s now field hours maxPoints
        = averagedQuery s field (now - hours * 3600) 300 maxPoints := by
      simp [getHistory, not_le.mpr h1, h24]
    rw [he]
    exact ⟨rfl, averagedQuery_length s field (now - hours * 3600) 300 maxPoints,
      averagedQuery_sorted s field (now - hours * 3600) 300 maxPoints,
      averagedQuery_aggregated s field (now - hours * 3600) 300 maxPoints⟩
  · have he : getHistory s now field hours maxPoints
        = hourlyQuery s field (now - hours * 3600) maxPoints := by
      have h1 : ¬ hours ≤ 1 := by linarith
      simp [getHistory, h1, not_le.mpr h24]
    rw [he]
    exact ⟨rfl, hourlyQuery_length s field (now - hours * 3600) maxPoints,
      hourlyQuery_sorted s field (now - hours * 3600) maxPoints,
      hourlyQuery_mem s field (now - hours * 3600) maxPoints⟩

/-- Witness for C4 at a concrete input: a one-reading store queried over each
of the three ranges takes the raw, averaged and hourly branches respectively. -/
theorem getHistory_resolution_witness :
    ((1 : ℚ) ≤ 1 ∧
      getHistory ⟨[], [⟨7000, "x", 5⟩], [⟨1, "x", 5, 5, 5, 1⟩]⟩ 7200 "x" 1 300
        = rawQuery ⟨[], [⟨7000, "x", 5⟩], [⟨1, "x", 5, 5, 5, 1⟩]⟩ "x" (7200 - 1 * 3600) 300)
    ∧ ((1 : ℚ) < 12 ∧ (12 : ℚ) ≤ 24 ∧
      getHistory ⟨[], [⟨7000, "x", 5⟩], [⟨1, "x", 5, 5, 5, 1⟩]⟩ 7200 "x" 12 300
        = averagedQuery ⟨[], [⟨7000, "x", 5⟩], [⟨1, "x", 5, 5, 5, 1⟩]⟩ "x" (7200 - 12 * 3600) 300 300)
    ∧ ((24 : ℚ) < 48 ∧
      getHistory ⟨[], [⟨7000, "x", 5⟩], [⟨1, "x", 5, 5, 5, 1⟩]⟩ 7200 "x" 48 300
        = hourlyQuery ⟨[], [⟨7000, "x", 5⟩], [⟨1, "x", 5, 5, 5, 1⟩]⟩ "x" (7200 - 48 * 3600) 300) := by
  refine ⟨⟨by norm_num, ?_⟩, ⟨by norm_num, by norm_num, ?_⟩, ⟨by norm_num, ?_⟩⟩
  · exact ((getHistory_resolution _ 7200 "x" 1 300).1 (by norm_num)).1
  · exact ((getHistory_resolution _ 7200 "x" 12 300).2.1 (by norm_num) (by norm_num)).1
  · exact ((getHistory_resolution _ 7200 "x" 48 300).2.2 (by norm_num)).1

lemma round2_intCast (n : ℤ) : round2 (n : ℚ) = n := by
  rw [round2, show ((n : ℚ) * 100) = ((n * 100 : ℤ) : ℚ) by push_cast; ring,
    round_intCast]
  push_cast
  rw [mul_div_assoc]
  norm_num

lemma lookup_map_pairs {β : Type} (l : List String) (g : String → β) (f : String)
    (e : β) : List.lookup f (l.map (fun x => (x, g x))) = some e → e = g f := by
  induction l with
  | nil => simp
  | cons x l ih =>
    simp only [List.map_cons, List.lookup]
    rcases hbe : (f == x) with _ | _
    · simpa [hbe] using ih
    · have hx : f = x := by simpa using hbe
      subst hx
      simp [hbe]
      intro h
      exact h.symm

/-- Claim C8 counterexample: a store whose persisted table holds the reading
(t = 0, "x", 1) while the write buffer holds a newer unflushed reading
(t = 10, "x", 99).  The most recently recorded raw value of "x" is 99, but
`get_summary` reports current = 1: the summary reads only the persisted
`readings` table and does not read through to the in-memory write buffer. -/
theorem getSummary_buffered_counterexample :
    latestRecordedValue ⟨[⟨10, "x", 99⟩], [⟨0, "x", 1⟩], []⟩ "x" = some 99
    ∧ getSummary ⟨[⟨10, "x", 99⟩], [⟨0, "x", 1⟩], []⟩ 20 1
        = [("x", ⟨1, 1, 1, 1, some 1⟩)]
    ∧ some (99 : ℚ) ≠ some (1 : ℚ) := by
  have h99 : round2 ((99 : ℤ) : ℚ) = ((99 : ℤ) : ℚ) := by
    rw [round2_intCast]
  have h1 : round2 ((1 : ℤ) : ℚ) = ((1 : ℤ) : ℚ) := by
    rw [round2_intCast]
  norm_num at h99 h1
  refine ⟨?_, ?_, by norm_num⟩
  · simp [latestRecordedValue, latestReading, List.insertionSort,
      List.orderedInsert, byTime]
  · simp [getSummary, latestReading, distinctList, List.insertionSort,
      List.orderedInsert, byTime, listAvg, listSum, listMin, listMax, h1]
    norm_num [h1]

/-- Claim C8 (amended): `get_summary(range_hours)` returns, for each field
with persisted readings in the window, the avg/min/max/count over those
persisted readings together with a current value equal to the most recently
persisted raw value of the field.  The summary does not read through to the
in-memory write buffer: its result is independent of the buffer contents, and
a buffered reading becomes visible only once `_flush_buffer` moves it into the
readings table. -/
theorem getSummary_persisted_only (buf rs : List Reading) (hs : List Bucket)
    (now hours : ℚ) :
    getSummary ⟨buf, rs, hs⟩ now hours = getSummary ⟨[], rs, hs⟩ now hours
    ∧ getSummary (flushBuffer ⟨buf, rs, hs⟩) now hours
        = getSummary ⟨[], rs ++ buf, hs⟩ now hours
    ∧ ∀ f e, List.lookup f (getSummary ⟨buf, rs, hs⟩ now hours) = some e →
        e.current = (latestReading rs f).map (fun r => round2 r.value) := by
  refine ⟨rfl, rfl, ?_⟩
  intro f e he
  simp only [getSummary] at he
  have := lookup_map_pairs _ _ f e he
  rw [this]

/-- Witness for the amended C8 at a concrete input: with one persisted reading
of "x" and a newer buffered one, the summary entry for "x" exists and its
current value is the most recently persisted value. -/
theorem getSummary_persisted_only_witness :
    List.lookup "x" (getSummary ⟨[⟨10, "x", 99⟩], [⟨0, "x", 1⟩], []⟩ 20 1)
        = some ⟨1, 1, 1, 1, some 1⟩
    ∧ (⟨1, 1, 1, 1, some 1⟩ : SummaryEntry).current
        = (latestReading [⟨0, "x", 1⟩] "x").map (fun r => round2 r.value) := by
  have h1 : round2 ((1 : ℤ) : ℚ) = ((1 : ℤ) : ℚ) := by rw [round2_intCast]
  norm_num at h1
  have hlook : List.lookup "x"
      (getSummary ⟨[⟨10, "x", 99⟩], [⟨0, "x", 1⟩], []⟩ 20 1)
      = some ⟨1, 1, 1, 1, some 1⟩ := by
    simp [getSummary, latestReading, distinctList, List.insertionSort,
      List.orderedInsert, byTime, listAvg, listSum, listMin, listMax, h1]
    norm_num [h1, List.lookup]
  exact ⟨hlook,
    (getSummary_persisted_only [⟨10, "x", 99⟩] [⟨0, "x", 1⟩] [] 20 1).2.2
      "x" _ hlook⟩

/-!
Threshold alerting (src/core/alerts.py).  Rules are already parsed (rule
loading and validation is a separate concern); `check` is translated loop
iteration by loop iteration.  Python dicts (`_cooldowns`, `_active`) are
association lists in insertion order; assigning an existing key updates it in
place, assigning a fresh key appends.
-/

/-- A comparison operator of a parsed alert rule (the OPS table). -/
inductive CmpOp
  | gt
  | lt
  | ge
  | le
  | eq
deriving DecidableEq

/-- `rule.op(value, threshold)` for the operators in OPS. -/
def CmpOp.eval : CmpOp → ℚ → ℚ → Bool
  | .gt, v, t => decide (t < v)
  | .lt, v, t => decide (v < t)
  | .ge, v, t => decide (t ≤ v)
  | .le, v, t => decide (v ≤ t)
  | .eq, v, t => decide (v = t)

/-- A parsed alert rule, as produced by `AlertManager._parse_rule`. -/
structure AlertRule where
  id : String
  field : String
  op : CmpOp
  threshold : ℚ
  level : String
  message : String
  cooldown : ℚ
deriving DecidableEq

/-- A triggered alert dict, as built inside `AlertManager.check`. -/
structure Alert where
  id : String
  level : String
  field : String
  value : ℚ
  message : String
  timestamp : ℚ
deriving DecidableEq

/-- Mutable state of `AlertManager`: `_cooldowns` (last trigger time per rule
id) and `_active` (active alert per rule id). -/
structure AlertManagerState where
  cooldowns : List (String × ℚ)
  active : List (String × Alert)
deriving DecidableEq

/-- Python dict assignment `d[k] = v`: update in place if the key exists,
append otherwise. -/
def setEntry {β : Type} (l : List (String × β)) (k : String) (v : β) :
    List (String × β) :=
  if l.any (fun e => decide (e.1 = k)) then
    l.map (fun e => if e.1 = k then (k, v) else e)
  else l ++ [(k, v)]

/-- Python `del d[k]`. -/
def removeEntry {β : Type} (l : List (String × β)) (k : String) :
    List (String × β) :=
  l.filter (fun e => !(decide (e.1 = k)))

/-- Python `k in d`. -/
def hasKey {β : Type} (l : List (String × β)) (k : String) : Bool :=
  l.any (fun e => decide (e.1 = k))

/-- `AlertManager._can_trigger`: the cooldown has elapsed since the last
trigger; a rule that never triggered reads a last-trigger time of 0 (the
epoch), which any realistic clock is past. -/
def canTrigger (st : AlertManagerState) (now : ℚ) (rule : AlertRule) : Bool :=
  decide (rule.cooldown ≤ now - ((List.lookup rule.id st.cooldowns).getD 0))

/-- `rule['message'].format(value=..., field=...)`. -/
def formatMessage (tmpl field : String) (value : ℚ) : String :=
  (tmpl.replace "{value}" (toString value)).replace "{field}" field

/-- The alert dict built by `AlertManager.check` when a rule triggers. -/
def mkAlert (rule : AlertRule) (field : String) (value now : ℚ) : Alert :=
  ⟨rule.id, rule.level, field, value, formatMessage rule.message field value, now⟩

/-- One iteration of the rule loop of `AlertManager.check`: skip on field
mismatch; on a true condition past cooldown record the trigger time, store the
active alert and append it to the triggered list; on a false condition clear
any active alert for the rule. -/
def checkRule (now : ℚ) (field : String) (value : ℚ)
    (acc : AlertManagerState × List Alert) (rule : AlertRule) :
    AlertManagerState × List Alert :=
  if rule.field ≠ field then acc
  else if CmpOp.eval rule.op value rule.threshold then
    if canTrigger acc.1 now rule then
      (⟨setEntry acc.1.cooldowns rule.id now,
        setEntry acc.1.active rule.id (mkAlert rule field value now)⟩,
       acc.2 ++ [mkAlert rule field value now])
    else acc
  else if hasKey acc.1.active rule.id then
    (⟨acc.1.cooldowns, removeEntry acc.1.active rule.id⟩, acc.2)
  else acc

/-- `AlertManager.check(field, value)` at time `now`: fold the rule loop over
the configured rules, returning the new state and the newly triggered
alerts. -/
def check (rules : List AlertRule) (st : AlertManagerState) (now : ℚ)
    (field : String) (value : ℚ) : AlertManagerState × List Alert :=
  rules.foldl (checkRule now field value) (st, [])

/-- `AlertManager.get_active_alerts()`. -/
def getActiveAlerts (st : AlertManagerState) : List Alert :=
  st.active.map Prod.snd

/-- The rule of the C3/C7 scenarios:
{id "hot", field "cpu_temp", condition "> 70", cooldown 300}. -/
def hotRule : AlertRule :=
  ⟨"hot", "cpu_temp", CmpOp.gt, 70, "warn", "cpu temp high", 300⟩

/-- C3 scenario, step 1: check("cpu_temp", 75) at base time T. -/
def hotStep1 (T : ℚ) : AlertManagerState × List Alert :=
  check [hotRule] ⟨[], []⟩ T "cpu_temp" 75

/-- C3 scenario, step 2: check("cpu_temp", 76) at T + 100. -/
def hotStep2 (T : ℚ) : AlertManagerState × List Alert :=
  check [hotRule] (hotStep1 T).1 (T + 100) "cpu_temp" 76

/-- C3 scenario, step 3: check("cpu_temp", 60) at T + 150. -/
def hotStep3 (T : ℚ) : AlertManagerState × List Alert :=
  check [hotRule] (hotStep2 T).1 (T + 150) "cpu_temp" 60

/-- C3 scenario, step 4: check("cpu_temp", 80) at T + 500. -/
def hotStep4 (T : ℚ) : AlertManagerState × List Alert :=
  check [hotRule] (hotStep3 T).1 (T + 500) "cpu_temp" 80

/-- Claim C3: for the rule {id "hot", field "cpu_temp", op >, threshold 70,
cooldown 300} with no prior trigger, checking 75 at scenario time T (any
realistic clock value, at least one cooldown past the epoch default of 0)
returns exactly one new alert; checking 76 at T + 100 returns no new alert but
keeps the rule active; checking 60 at T + 150 removes the active alert and
returns nothing; checking 80 at T + 500 returns a new alert again, the elapsed
cooldown being measured from the recorded trigger time T (which step 3 left in
place), not from when the condition became true. -/
theorem alert_cooldown_scenario (T : ℚ) (hT : 300 ≤ T) :
    hotStep1 T = (⟨[("hot", T)], [("hot", mkAlert hotRule "cpu_temp" 75 T)]⟩,
        [mkAlert hotRule "cpu_temp" 75 T])
    ∧ (hotStep2 T).2 = []
    ∧ hasKey (hotStep2 T).1.active "hot" = true
    ∧ (hotStep3 T).2 = []
    ∧ (hotStep3 T).1.active = []
    ∧ List.lookup "hot" (hotStep3 T).1.cooldowns = some T
    ∧ (hotStep4 T).2 = [mkAlert hotRule "cpu_temp" 80 (T + 500)] := by
  have e1 : hotStep1 T = (⟨[("hot", T)],
      [("hot", mkAlert hotRule "cpu_temp" 75 T)]⟩,
      [mkAlert hotRule "cpu_temp" 75 T]) := by
    norm_num [hotStep1, check, checkRule, hotRule, CmpOp.eval, canTrigger,
      setEntry, hasKey, hT]
  have e2 : hotStep2 T = (⟨[("hot", T)],
      [("hot", mkAlert hotRule "cpu_temp" 75 T)]⟩, []) := by
    rw [hotStep2, e1]
    norm_num [check, checkRule, hotRule, CmpOp.eval, canTrigger, List.lookup]
  have e3 : hotStep3 T = (⟨[("hot", T)], []⟩, []) := by
    rw [hotStep3, e2]
    norm_num [check, checkRule, hotRule, CmpOp.eval, canTrigger, hasKey,
      removeEntry, List.lookup]
  have e4 : hotStep4 T = (⟨[("hot", T + 500)],
      [("hot", mkAlert hotRule "cpu_temp" 80 (T + 500))]⟩,
      [mkAlert hotRule "cpu_temp" 80 (T + 500)]) := by
    rw [hotStep4, e3]
    norm_num [check, checkRule, hotRule, CmpOp.eval, canTrigger, setEntry,
      List.lookup]
  refine ⟨e1, by rw [e2], by rw [e2]; simp [hasKey], by rw [e3], by rw [e3],
    by rw [e3]; simp [List.lookup], by rw [e4]⟩

/-- Witness for C3 at the concrete base time T = 1000. -/
theorem alert_cooldown_scenario_witness :
    (300 : ℚ) ≤ 1000
    ∧ hotStep1 1000
        = (⟨[("hot", 1000)], [("hot", mkAlert hotRule "cpu_temp" 75 1000)]⟩,
           [mkAlert hotRule "cpu_temp" 75 1000])
    ∧ (hotStep2 1000).2 = []
    ∧ hasKey (hotStep2 1000).1.active "hot" = true
    ∧ (hotStep3 1000).2 = []
    ∧ (hotStep3 1000).1.active = []
    ∧ (hotStep4 1000).2 = [mkAlert hotRule "cpu_temp" 80 (1000 + 500)] := by
  have h := alert_cooldown_scenario 1000 (by norm_num)
  exact ⟨by norm_num, h.1, h.2.1, h.2.2.1, h.2.2.2.1, h.2.2.2.2.1,
    h.2.2.2.2.2.2⟩

lemma hasKey_setEntry {β : Type} (l : List (String × β)) (k : String) (v : β) :
    hasKey (setEntry l k v) k = true := by
  by_cases h : l.any (fun e => decide (e.1 = k))
  · rw [setEntry, if_pos h, hasKey, List.any_eq_true]
    obtain ⟨e, he, hk⟩ := List.any_eq_true.mp h
    simp only [decide_eq_true_eq] at hk
    refine ⟨(k, v), List.mem_map.mpr ⟨e, he, ?_⟩, by simp⟩
    simp [hk]
  · rw [setEntry, if_neg h]
    simp [hasKey]

lemma hasKey_removeEntry {β : Type} (l : List (String × β)) (k : String) :
    hasKey (removeEntry l k) k = false := by
  induction l with
  | nil => rfl
  | cons e l ih =>
    by_cases h : e.1 = k
    · simpa [removeEntry, List.filter_cons, h] using ih
    · simp only [removeEntry, List.filter_cons, h, decide_False, Bool.not_false,
        if_true] at ih ⊢
      simp [hasKey, h] at ih ⊢

/-- C7 counterexample, step 1: trigger the rule at t = 1000. -/
def recheckStep1 : AlertManagerState × List Alert :=
  check [hotRule] ⟨[], []⟩ 1000 "cpu_temp" 75

/-- C7 counterexample, step 2: condition false at t = 1100 clears the alert. -/
def recheckStep2 : AlertManagerState × List Alert :=
  check [hotRule] recheckStep1.1 1100 "cpu_temp" 60

/-- C7 counterexample, step 3: condition true again at t = 1150, still inside
the 300-second cooldown of the t = 1000 trigger. -/
def recheckStep3 : AlertManagerState × List Alert :=
  check [hotRule] recheckStep2.1 1150 "cpu_temp" 75

/-- Claim C7 counterexample: after the active alert of rule "hot" is cleared
at t = 1100, a check at t = 1150 whose condition is true again (75 > 70) does
NOT leave the rule present in the active set, because the cooldown of the
t = 1000 trigger has not elapsed, so no new trigger fires and `check` only
adds to the active set on a trigger.  The claim, as stated, requires the rule
to be in `get_active_alerts()` after that third check. -/
theorem alert_active_recheck_counterexample :
    CmpOp.eval hotRule.op 75 hotRule.threshold = true
    ∧ hasKey recheckStep1.1.active "hot" = true
    ∧ recheckStep2.1.active = []
    ∧ recheckStep3.1.active = []
    ∧ getActiveAlerts recheckStep3.1 = [] := by
  norm_num [recheckStep1, recheckStep2, recheckStep3, check, checkRule,
    hotRule, CmpOp.eval, canTrigger, setEntry, hasKey, removeEntry,
    List.lookup, getActiveAlerts]

/-- Claim C7 (amended): after a `check` on a rule's field, the rule has an
ActiveAlert exactly when its condition evaluated true and either the rule
could trigger (cooldown elapsed since the last trigger) or it was already
active.  So an active alert persists while the condition stays true, is
removed exactly when a check observes the condition false, and after a clear a
condition-true check re-adds the rule only once the cooldown has elapsed.
Checks on other fields leave the state unchanged. -/
theorem alert_active_iff (r : AlertRule) (st : AlertManagerState) (now v : ℚ) :
    (hasKey (check [r] st now r.field v).1.active r.id = true
      ↔ (CmpOp.eval r.op v r.threshold = true
          ∧ (canTrigger st now r = true ∨ hasKey st.active r.id = true)))
    ∧ ∀ f : String, f ≠ r.field → (check [r] st now f v).1 = st := by
  constructor
  · rw [check]
    simp only [List.foldl_cons, List.foldl_nil, checkRule]
    rw [if_neg (by simp)]
    rcases he : CmpOp.eval r.op v r.threshold with _ | _
    · rcases ha : hasKey st.active r.id with _ | _
      · simp [he, ha]
      · simp [he, ha, hasKey_removeEntry]
    · rcases hc : canTrigger st now r with _ | _
      · simp [he, hc]
      · simp [he, hc, hasKey_setEntry]
  · intro f hf
    rw [check]
    simp only [List.foldl_cons, List.foldl_nil, checkRule]
    rw [if_pos (by simpa using fun h => hf h.symm)]

/-- Witness for the amended C7 at a concrete input: for the "hot" rule and an
empty state at t = 1000, the condition 75 > 70 holds and the cooldown is
elapsed, so the iff puts "hot" in the active set; and a check on a different
field leaves the state unchanged. -/
theorem alert_active_iff_witness :
    hasKey (check [hotRule] ⟨[], []⟩ 1000 "cpu_temp" 75).1.active "hot" = true
    ∧ (check [hotRule] ⟨[], []⟩ 1000 "humidity" 75).1 = (⟨[], []⟩ : AlertManagerState) := by
  constructor
  · refine ((alert_active_iff hotRule ⟨[], []⟩ 1000 75).1).mpr ⟨?_, Or.inl ?_⟩
    · norm_num [hotRule, CmpOp.eval]
    · norm_num [hotRule, canTrigger, List.lookup]
  · exact (alert_active_iff hotRule ⟨[], []⟩ 1000 75).2 "humidity" (by decide)

/-!
Web event bus (src/core/web_event_bus.py).  Each SSE client owns a
fixed-capacity queue (`Queue(maxsize=100)` in `sse_stream`); `publish` updates
the latest-value cache, offers the message to every client queue with
`put_nowait` (dropping the message on a Full queue and marking that queue
dead), removes the dead queues from the client registry, and then calls the
direct subscribers under the same try/except pattern as the tkinter bus.
-/

/-- A remote SSE consumer: its identity, the fixed capacity of its queue and
the messages currently buffered in it. -/
structure SseClient (α : Type) where
  cid : Nat
  capacity : Nat
  buffered : List (String × α)
deriving DecidableEq

/-- State of `WebEventBus`: the `_latest` cache, the `_sse_clients` registry
and the `_subscribers` registry. -/
structure WebEventBusState (α : Type) where
  latest : List (String × α)
  sseClients : List (SseClient α)
  subs : List (Subscriber α)

/-- `queue.Full` for a bounded queue: `put_nowait` fails when the queue
already holds `capacity` messages. -/
def isFull {α : Type} (c : SseClient α) : Bool :=
  decide (c.capacity ≤ c.buffered.length)

/-- `WebEventBus.publish(topic, payload)`: update the latest cache; offer the
message to every SSE client queue, collecting the Full ones as dead and then
removing them from the registry; finally invoke the direct subscribers, each
under its own try/except (delivery and error logs as for the tkinter bus). -/
def webPublish {α : Type} [DecidableEq α] (bus : WebEventBusState α)
    (topic : String) (p : α) :
    WebEventBusState α × List (Nat × α) × List Nat :=
  let dead := bus.sseClients.filter isFull
  let afterPut := bus.sseClients.map (fun c =>
    if isFull c then c else ⟨c.cid, c.capacity, c.buffered ++ [(topic, p)]⟩)
  let survivors := afterPut.filter (fun c => !(decide (c ∈ dead)))
  (⟨setEntry bus.latest topic p, survivors, bus.subs⟩,
   dispatchMessage bus.subs topic p)

/-- Claim C9 counterexample: a registry holding a single client whose queue
(capacity 1) is already full.  The very first publish that finds the queue
full removes the client from the registry: unregistration is immediate, not
contingent on the overflow persisting across further publishes. -/
theorem webBus_overflow_counterexample :
    (⟨[], [⟨0, 1, [("t", 0)]⟩], []⟩ : WebEventBusState ℕ).sseClients.length = 1
    ∧ isFull (⟨0, 1, [("t", (0 : ℕ))]⟩ : SseClient ℕ) = true
    ∧ (webPublish (⟨[], [⟨0, 1, [("t", 0)]⟩], []⟩ : WebEventBusState ℕ)
        "t" 1).1.sseClients = [] := by
  refine ⟨rfl, rfl, ?_⟩
  simp [webPublish, isFull]

/-- Claim C9 (amended): on a publish, every client whose fixed-capacity queue
is full has the newest message (the one being published) dropped and is
immediately unregistered as dead by that same publish; every other client
stays registered with the new message appended to its queue.  The latest-value
cache is updated regardless.  (Client identities are assumed distinct, as they
are for the distinct queue objects of the Python list.) -/
theorem webPublish_overflow_policy {α : Type} [DecidableEq α]
    (bus : WebEventBusState α) (topic : String) (p : α)
    (hinj : ∀ a ∈ bus.sseClients, ∀ b ∈ bus.sseClients, a.cid = b.cid → a = b) :
    (webPublish bus topic p).1.sseClients
      = (bus.sseClients.filter (fun c => !(isFull c))).map
          (fun c => ⟨c.cid, c.capacity, c.buffered ++ [(topic, p)]⟩)
    ∧ (webPublish bus topic p).1.latest = setEntry bus.latest topic p := by
  refine ⟨?_, rfl⟩
  simp only [webPublish]
  rw [List.filter_map]
  have hcong : ∀ c ∈ bus.sseClients,
      ((fun x => !(decide (x ∈ bus.sseClients.filter isFull))) ∘ (fun c =>
        if isFull c then c
        else ⟨c.cid, c.capacity, c.buffered ++ [(topic, p)]⟩)) c
      = !(isFull c) := by
    intro c hc
    by_cases hf : isFull c
    · simp only [Function.comp_apply, hf, if_true, Bool.not_eq_true]
      have hd : c ∈ bus.sseClients.filter isFull := List.mem_filter.mpr ⟨hc, hf⟩
      simp [hd]
    · simp only [Function.comp_apply, hf, if_false, Bool.not_false]
      have hnd : (⟨c.cid, c.capacity, c.buffered ++ [(topic, p)]⟩ : SseClient α)
          ∉ bus.sseClients.filter isFull := by
        intro hmem
        have h2 := List.mem_filter.mp hmem
        have heq := hinj _ h2.1 c hc rfl
        have hlen := congrArg (fun x : SseClient α => x.buffered.length) heq
        simp at hlen
      simp [hnd]
  rw [List.filter_congr hcong]
  refine List.map_congr_left ?_
  intro c hc
  have hf := (List.mem_filter.mp hc).2
  simp only [Bool.not_eq_true'] at hf
  simp [hf]

/-- Witness for the amended C9 at a concrete input: of two registered clients,
the full one (capacity 1, one buffered message) is unregistered by the publish
and the other survives with the new message appended. -/
theorem webPublish_overflow_policy_witness :
    (webPublish (⟨[], [⟨0, 1, [("t", 7)]⟩, ⟨1, 2, []⟩], []⟩ : WebEventBusState ℕ)
        "t" 9).1.sseClients = [⟨1, 2, [("t", 9)]⟩] := by
  have h := webPublish_overflow_policy
    (⟨[], [⟨0, 1, [("t", 7)]⟩, ⟨1, 2, []⟩], []⟩ : WebEventBusState ℕ) "t" 9
    (by decide)
  rw [h.1]
  simp [isFull]

/-!
Recording hook (src/web_app.py, `_wire_data_store` / `recording_publish`).
The hook wraps `bus.publish`: it first forwards the original publication, then
— for mapping payloads on non-camera topics — walks the payload fields and
forwards each recordable numeric field to `store.record` and
`alert_manager.check`, republishing every newly triggered alert on the
reserved topic "alert".  Python values are modelled by the cases the hook
distinguishes: `isinstance(value, (int, float))` accepts int, float and bool
(bool is a subclass of int); every other value is non-numeric.
-/

/-- A Python payload value, by the cases `recording_publish` distinguishes. -/
inductive PyValue
  | intV : ℤ → PyValue
  | floatV : ℚ → PyValue
  | boolV : Bool → PyValue
  | strV : String → PyValue
  | otherV : PyValue
deriving DecidableEq

/-- `isinstance(value, (int, float))`; true for bool as well, since Python
bool is a subclass of int. -/
def isNumeric : PyValue → Bool
  | .intV _ => true
  | .floatV _ => true
  | .boolV _ => true
  | _ => false

/-- `float(value)` on the accepted values. -/
def pyFloat : PyValue → ℚ
  | .intV n => (n : ℚ)
  | .floatV q => q
  | .boolV b => if b then 1 else 0
  | _ => 0

/-- A payload seen by `recording_publish`: a mapping (dict in field order) or
any non-mapping object. -/
inductive WebPayload
  | dictP : List (String × PyValue) → WebPayload
  | otherP : WebPayload
deriving DecidableEq

/-- One publication made by the hook: the wrapped original publish, or an
alert republished on the reserved "alert" topic. -/
inductive PubEvent
  | orig : String → WebPayload → PubEvent
  | alertEvent : Alert → PubEvent
deriving DecidableEq

/-- Result of one `recording_publish` call: everything published (in order),
the store state and the alert-manager state. -/
structure RecordingOutcome where
  published : List PubEvent
  store : DataStore
  alerts : AlertManagerState
deriving DecidableEq

/-- The conjunction of the three keep-conditions of the field loop: the field
name does not start with "_", the value is numeric, and the sensor-field
whitelist is either unconfigured (empty) or contains the field. -/
def shouldRecord (sensorFields : List String) (fv : String × PyValue) : Bool :=
  !(decide ("_".data <+: fv.1.data)) && isNumeric fv.2
    && (decide (sensorFields = []) || decide (fv.1 ∈ sensorFields))

/-- One iteration of the field loop of `recording_publish`: skip names
starting with "_", skip non-numeric values, skip fields outside a configured
whitelist; otherwise record the value, run the alert check, and republish each
newly triggered alert on topic "alert". -/
def recordField (now : ℚ) (sensorFields : List String) (rules : List AlertRule)
    (acc : RecordingOutcome) (fv : String × PyValue) : RecordingOutcome :=
  if "_".data <+: fv.1.data then acc
  else if !(isNumeric fv.2) then acc
  else if sensorFields ≠ [] ∧ fv.1 ∉ sensorFields then acc
  else
    let checked := check rules acc.alerts now fv.1 (pyFloat fv.2)
    ⟨acc.published ++ checked.2.map PubEvent.alertEvent,
     record acc.store now fv.1 (pyFloat fv.2), checked.1⟩

/-- `recording_publish(topic, payload)`: forward the original publish; then,
unless the payload is not a mapping or the topic mentions "camera", run the
field loop over the payload items. -/
def recordingPublish (now : ℚ) (sensorFields : List String)
    (rules : List AlertRule) (store : DataStore) (alerts : AlertManagerState)
    (topic : String) (payload : WebPayload) : RecordingOutcome :=
  let base : RecordingOutcome := ⟨[PubEvent.orig topic payload], store, alerts⟩
  match payload with
  | .otherP => base
  | .dictP kvs =>
    if "camera".data <:+: topic.data then base
    else kvs.foldl (recordField now sensorFields rules) base

/-- Sequentially run `check` over a list of (field, value) observations,
threading the alert state and concatenating the triggered alerts. -/
def runChecks (rules : List AlertRule) (now : ℚ) :
    AlertManagerState → List (String × ℚ) → AlertManagerState × List Alert
  | st, [] => (st, [])
  | st, fv :: rest =>
    let r1 := check rules st now fv.1 fv.2
    let r2 := runChecks rules now r1.1 rest
    (r2.1, r1.2 ++ r2.2)

lemma recordFields_spec (now : ℚ) (sf : List String) (rules : List AlertRule)
    (kvs : List (String × PyValue)) (acc : RecordingOutcome) :
    kvs.foldl (recordField now sf rules) acc
      = ⟨acc.published
            ++ (runChecks rules now acc.alerts
                ((kvs.filter (shouldRecord sf)).map
                  (fun fv => (fv.1, pyFloat fv.2)))).2.map PubEvent.alertEvent,
         ⟨acc.store.writeBuffer
            ++ (kvs.filter (shouldRecord sf)).map
                (fun fv => ⟨now, fv.1, pyFloat fv.2⟩),
          acc.store.readings, acc.store.hourlyAvg⟩,
         (runChecks rules now acc.alerts
            ((kvs.filter (shouldRecord sf)).map
              (fun fv => (fv.1, pyFloat fv.2)))).1⟩ := by
  induction kvs generalizing acc with
  | nil => simp [runChecks]
  | cons fv rest ih =>
    by_cases h1 : "_".data <+: fv.1.data
    · have hs : shouldRecord sf fv = false := by simp [shouldRecord, h1]
      rw [List.foldl_cons, recordField, if_pos h1, List.filter_cons]
      rw [hs]
      exact ih acc
    · by_cases h2 : isNumeric fv.2
      · by_cases h3 : sf ≠ [] ∧ fv.1 ∉ sf
        · have hs : shouldRecord sf fv = false := by
            rcases h3 with ⟨h3a, h3b⟩
            simp [shouldRecord, h1, h2, h3a, h3b]
          rw [List.foldl_cons, recordField, if_neg h1, if_neg (by simp [h2]),
            if_pos h3, List.filter_cons]
          rw [hs]
          exact ih acc
        · have hs : shouldRecord sf fv = true := by
            rw [not_and_or, not_not] at h3
            rcases h3 with h3 | h3
            · simp [shouldRecord, h1, h2, h3]
            · have h3m : fv.1 ∈ sf := not_not.mp h3
              simp [shouldRecord, h1, h2, h3m]
          rw [List.foldl_cons, recordField, if_neg h1, if_neg (by simp [h2]),
            if_neg h3, List.filter_cons]
          rw [hs]
          rw [ih]
          simp only [record, runChecks, List.map_cons, List.map_append,
            List.append_assoc, List.cons_append, List.nil_append]
          simp
      · have hs : shouldRecord sf fv = false := by
          simp [shouldRecord, h1, Bool.eq_false_iff.mpr h2]
        rw [List.foldl_cons, recordField, if_neg h1,
          if_pos (by simp [Bool.eq_false_iff.mpr h2]), List.filter_cons]
        rw [hs]
        exact ih acc

/-- Claim C10: a publication through the recording hook always forwards the
original publish first.  If the payload is not a mapping or the topic contains
"camera", nothing is recorded or alert-checked and the store and alert state
are unchanged.  Otherwise exactly the fields whose name does not start with
"_", whose value is numeric (int/float, including bool) and that pass the
configured sensor-field whitelist are forwarded, in payload order, to
`store.record` and to `alert_manager.check`, and every alert those checks
return is republished on the reserved topic "alert"; skipped fields contribute
nothing to the store or the alert state. -/
theorem recordingPublish_characterization (now : ℚ) (sf : List String)
    (rules : List AlertRule) (store : DataStore) (alerts : AlertManagerState)
    (topic : String) (payload : WebPayload) :
    (payload = WebPayload.otherP →
      recordingPublish now sf rules store alerts topic payload
        = ⟨[PubEvent.orig topic payload], store, alerts⟩)
    ∧ (∀ kvs, payload = WebPayload.dictP kvs →
        ("camera".data <:+: topic.data) →
      recordingPublish now sf rules store alerts topic payload
        = ⟨[PubEvent.orig topic payload], store, alerts⟩)
    ∧ (∀ kvs, payload = WebPayload.dictP kvs →
        ¬ ("camera".data <:+: topic.data) →
      recordingPublish now sf rules store alerts topic payload
        = ⟨PubEvent.orig topic payload
             :: (runChecks rules now alerts
                  ((kvs.filter (shouldRecord sf)).map
                    (fun fv => (fv.1, pyFloat fv.2)))).2.map PubEvent.alertEvent,
           ⟨store.writeBuffer
              ++ (kvs.filter (shouldRecord sf)).map
                  (fun fv => ⟨now, fv.1, pyFloat fv.2⟩),
            store.readings, store.hourlyAvg⟩,
           (runChecks rules now alerts
              ((kvs.filter (shouldRecord sf)).map
                (fun fv => (fv.1, pyFloat fv.2)))).1⟩) := by
  refine ⟨fun hp => ?_, fun kvs hp hcam => ?_, fun kvs hp hcam => ?_⟩
  · subst hp
    rfl
  · subst hp
    simp [recordingPublish, hcam]
  · subst hp
    simp only [recordingPublish, if_neg hcam]
    rw [recordFields_spec]
    simp

/-- Witness for C10 at a concrete input: on a non-camera topic, of the fields
{cpu: 42.0, _hidden: 1.0, name: "x", ok: True} exactly "cpu" (a float) and
"ok" (a bool, which Python treats as an int) are recorded, in payload order;
with no alert rules nothing is republished, and the original publish comes
first. -/
theorem recordingPublish_characterization_witness :
    ¬ ("camera".data <:+: "sensors.env".data)
    ∧ recordingPublish 5 [] [] ⟨[], [], []⟩ ⟨[], []⟩ "sensors.env"
        (WebPayload.dictP [("cpu", PyValue.floatV 42),
          ("_hidden", PyValue.floatV 1), ("name", PyValue.strV "x"),
          ("ok", PyValue.boolV true)])
      = ⟨[PubEvent.orig "sensors.env"
            (WebPayload.dictP [("cpu", PyValue.floatV 42),
              ("_hidden", PyValue.floatV 1), ("name", PyValue.strV "x"),
              ("ok", PyValue.boolV true)])],
         ⟨[⟨5, "cpu", 42⟩, ⟨5, "ok", 1⟩], [], []⟩, ⟨[], []⟩⟩ := by
  have hcam : ¬ ("camera".data <:+: "sensors.env".data) := by decide
  refine ⟨hcam, ?_⟩
  have h := (recordingPublish_characterization 5 [] [] ⟨[], [], []⟩ ⟨[], []⟩
      "sensors.env" (WebPayload.dictP [("cpu", PyValue.floatV 42),
        ("_hidden", PyValue.floatV 1), ("name", PyValue.strV "x"),
        ("ok", PyValue.boolV true)])).2.2 _ rfl hcam
  rw [h]
  have hcpu : ("_".data <+: "cpu".data) = False := by
    simp only [eq_iff_iff, iff_false]
    decide
  have hhid : ("_".data <+: "_hidden".data) = True := by
    simp only [eq_iff_iff, iff_true]
    decide
  have hname : ("_".data <+: "name".data) = False := by
    simp only [eq_iff_iff, iff_false]
    decide
  have hok : ("_".data <+: "ok".data) = False := by
    simp only [eq_iff_iff, iff_false]
    decide
  simp [shouldRecord, isNumeric, pyFloat, runChecks, check, hcpu, hhid,
    hname, hok, List.filter_cons]
